import Mathlib

/-!
Verification development for the simple-comfyUI repository.

The file embeds, shallowly, the parts of the program the claims talk about:
the frontend API client, the zustand generation store, the generation form,
the progress tracker polling loop, and the backend workflow engine.  The
backend python sources are not present in the repository snapshot, so the
engine definitions are modelled from the specification text, as their doc
comments state.
-/

namespace SimpleComfy

namespace Client

/-- Status union of GenerationJob in src/frontend/src/lib/api-client.ts
(seven string literals). -/
inductive ClientStatus where
  | pending
  | running
  | completed
  | failed
  | processing
  | queued
  | cancelled
deriving DecidableEq, Repr

/-- Terminal statuses of the backend job model. -/
def ClientStatus.isTerminal : ClientStatus → Bool
  | .completed => true
  | .failed => true
  | .cancelled => true
  | _ => false

/-- GenerationParameters interface from src/frontend/src/lib/api-client.ts. -/
structure GenerationParameters where
  width : Nat
  height : Nat
  num_images : Nat
  steps : Nat
  cfg_scale : ℚ
  negative_prompt : Option String
  seed : Option Int
deriving DecidableEq, Repr

/-- A javascript value as far as the submission path needs one: the literal
undefined, a string, or a parameters object. -/
inductive JsVal where
  | undef
  | str (s : String)
  | params (p : GenerationParameters)
deriving DecidableEq, Repr

/-- JSON.stringify drops object fields whose value is undefined. -/
def stringifyFields (fields : List (String × JsVal)) : List (String × JsVal) :=
  fields.filter (fun f => decide (f.2 ≠ JsVal.undef))

/-- Request body built by ApiClient.submitGeneration
(src/frontend/src/lib/api-client.ts lines 63 to 87): the object literal
has the fields template_id, prompt, parameters, in that order, and is
passed through JSON.stringify. -/
def ApiClient.submitGenerationBody (prompt : String) (templateId : JsVal)
    (parameters : JsVal) : List (String × JsVal) :=
  stringifyFields
    [("template_id", templateId), ("prompt", JsVal.str prompt), ("parameters", parameters)]

/-- On an ok response, ApiClient.submitGeneration returns the job_id field of
the parsed response body. -/
structure SubmitResponse where
  ok : Bool
  job_id : String
deriving DecidableEq, Repr

/-- Result of ApiClient.submitGeneration given the HTTP response. -/
def ApiClient.submitGenerationResult (resp : SubmitResponse) : Except String String :=
  if resp.ok then Except.ok resp.job_id
  else Except.error "Failed to submit generation"

/-- The store action submitGeneration
(src/frontend/src/lib/stores/generation-store.ts lines 51 to 84) declares two
parameters and calls apiClient.submitGeneration with those two positional
arguments; at runtime the third parameter of the client method is therefore
the value undefined. -/
def GenerationStore.submitGenerationBody (prompt : String) (parameters : JsVal) :
    List (String × JsVal) :=
  ApiClient.submitGenerationBody prompt parameters JsVal.undef

/-- handleSubmit in src/frontend/src/components/GenerationForm.tsx line 105
calls the store action with three positional arguments; the store action
declares only two parameters, so at runtime the parameters object is the
discarded extra argument and the template id lands in the second slot. -/
def GenerationForm.submitBody (prompt : String) (templateId : String)
    (_parameters : GenerationParameters) : List (String × JsVal) :=
  GenerationStore.submitGenerationBody prompt (JsVal.str templateId)

/-- Example parameters object as the form builds it from its defaults. -/
def exampleParameters : GenerationParameters :=
  { width := 1024, height := 1024, num_images := 1, steps := 50,
    cfg_scale := 15 / 2, negative_prompt := some "", seed := none }

/-- The polling predicate of pollJob
(src/frontend/src/lib/stores/generation-store.ts lines 62 to 68): keep
polling exactly when the fetched status is the literal pending or running. -/
def pollJobKeepsPolling : ClientStatus → Bool
  | .pending => true
  | .running => true
  | _ => false

/-- Updates delivered by the pollJob loop: given the sequence of statuses the
server would return on successive polls, the loop stores each fetched job and
schedules another poll only while pollJobKeepsPolling holds; the first status
outside that set is the last update delivered. -/
def pollJobTrace : List ClientStatus → List ClientStatus
  | [] => []
  | s :: rest => if pollJobKeepsPolling s then s :: pollJobTrace rest else [s]

/-- GenerationJob record as the store manipulates it
(src/frontend/src/lib/api-client.ts lines 10 to 28, fields the store code
touches). -/
structure GenerationJob where
  id : String
  status : ClientStatus
  progress : Nat
  prompt : String
  error : Option String
deriving DecidableEq, Repr

/-- The slice of the zustand store state touched by fetchJobStatus
(src/frontend/src/lib/stores/generation-store.ts). -/
structure StoreState where
  jobs : List GenerationJob
  currentJob : Option GenerationJob
deriving DecidableEq, Repr

/-- fetchJobStatus (src/frontend/src/lib/stores/generation-store.ts lines 95
to 108): on a successful fetch it maps over jobs replacing every entry whose
id equals jobId by the fetched job, then, when the current job has that id,
replaces currentJob as well; on a fetch error it only logs and changes
nothing. -/
def fetchJobStatus (st : StoreState) (jobId : String)
    (fetched : Except String GenerationJob) : StoreState :=
  match fetched with
  | .error _ => st
  | .ok job =>
      let updatedJobs := st.jobs.map (fun j => if j.id = jobId then job else j)
      let afterJobs : StoreState := { st with jobs := updatedJobs }
      match st.currentJob with
      | some c => if c.id = jobId then { afterJobs with currentJob := some job } else afterJobs
      | none => afterJobs

/-- Template interface from src/frontend/src/lib/api-client.ts. -/
structure ClientTemplate where
  id : String
  name : String
  description : String
  category : String
deriving DecidableEq, Repr

/-- FormData state of GenerationForm
(src/frontend/src/components/GenerationForm.tsx lines 24 to 34 and 47 to 56). -/
structure FormData where
  prompt : String
  negativePrompt : String
  width : Nat
  height : Nat
  numImages : Nat
  steps : Nat
  cfgScale : ℚ
  seed : Option Int
deriving DecidableEq, Repr

/-- Initial form state (GenerationForm.tsx lines 47 to 56). -/
def initialFormData : FormData :=
  { prompt := "", negativePrompt := "", width := 1024, height := 1024,
    numImages := 1, steps := 50, cfgScale := 15 / 2, seed := none }

/-- RESOLUTION_PRESETS (GenerationForm.tsx lines 36 to 42): select value,
width, height. -/
def RESOLUTION_PRESETS : List (String × Nat × Nat) :=
  [("1024x1024", 1024, 1024), ("768x1024", 768, 1024), ("1024x768", 1024, 768),
   ("1024x576", 1024, 576), ("576x1024", 576, 1024)]

/-- The user interactions the form widgets can emit. -/
inductive FormEvent where
  | setPrompt (s : String)
  | setNegativePrompt (s : String)
  | setResolution (v : String)
  | setNumImages (n : Nat)
  | setSteps (n : Nat)
  | setCfgScale (q : ℚ)
  | setSeed (s : Option Int)
deriving DecidableEq, Repr

/-- Values the rendered widgets can actually deliver: the numImages slider
has min 1 max 4, the steps slider min 10 max 150, the guidance slider min 1
max 20 (GenerationForm.tsx lines 204 to 212, 255 to 263, 272 to 280); the
other inputs are free text. -/
def FormEvent.fromUI : FormEvent → Prop
  | .setNumImages n => 1 ≤ n ∧ n ≤ 4
  | .setSteps n => 10 ≤ n ∧ n ≤ 150
  | .setCfgScale q => 1 ≤ q ∧ q ≤ 20
  | _ => True

/-- handleInputChange and handleResolutionChange applied to the form state
(GenerationForm.tsx lines 58 to 71). -/
def applyEvent (fd : FormData) : FormEvent → FormData
  | .setPrompt s => { fd with prompt := s }
  | .setNegativePrompt s => { fd with negativePrompt := s }
  | .setResolution v =>
      match RESOLUTION_PRESETS.find? (fun p => p.1 = v) with
      | some p => { fd with width := p.2.1, height := p.2.2 }
      | none => fd
  | .setNumImages n => { fd with numImages := n }
  | .setSteps n => { fd with steps := n }
  | .setCfgScale q => { fd with cfgScale := q }
  | .setSeed s => { fd with seed := s }

/-- Form state after a sequence of interactions. -/
def applyEvents (fd : FormData) (evs : List FormEvent) : FormData :=
  evs.foldl applyEvent fd

/-- A form state the rendered widgets can reach from the initial state. -/
def ReachableForm (fd : FormData) : Prop :=
  ∃ evs : List FormEvent, (∀ e ∈ evs, e.fromUI) ∧ fd = applyEvents initialFormData evs

/-- The request handleSubmit hands to the store on dispatch. -/
structure SubmitRequest where
  prompt : String
  templateId : String
  parameters : GenerationParameters
deriving DecidableEq, Repr

/-- The javascript string trim: drop leading and trailing whitespace.  The
core String.trim of Lean is implemented on byte positions and does not reduce
inside the kernel, so the embedding carries its own equivalent definition
over the character list. -/
def jsTrim (s : String) : String :=
  String.mk (((s.data.dropWhile Char.isWhitespace).reverse.dropWhile
    Char.isWhitespace).reverse)

/-- handleSubmit (GenerationForm.tsx lines 73 to 124): returns early when no
template is selected or the trimmed prompt is empty; otherwise it builds the
parameters object (the seed field is dropped when falsy, that is null or 0)
and dispatches the submission. -/
def handleSubmit (template : Option ClientTemplate) (fd : FormData) :
    Option SubmitRequest :=
  match template with
  | none => none
  | some t =>
      if jsTrim fd.prompt = "" then none
      else
        some
          { prompt := fd.prompt, templateId := t.id,
            parameters :=
              { width := fd.width, height := fd.height, num_images := fd.numImages,
                steps := fd.steps, cfg_scale := fd.cfgScale,
                negative_prompt := some fd.negativePrompt,
                seed :=
                  match fd.seed with
                  | some s => if s = 0 then none else some s
                  | none => none } }

/-- Bounds the claim states for the submitted parameter fields. -/
def FormData.inBounds (fd : FormData) : Prop :=
  1 ≤ fd.numImages ∧ fd.numImages ≤ 4 ∧ 10 ≤ fd.steps ∧ fd.steps ≤ 150 ∧
    1 ≤ fd.cfgScale ∧ fd.cfgScale ≤ 20

/-- Concrete form state: the initial state after the user typed a prompt. -/
def sampleFormState : FormData :=
  applyEvents initialFormData [FormEvent.setPrompt "a cat"]

/-- Concrete selected template. -/
def sampleClientTemplate : ClientTemplate :=
  { id := "t1", name := "Anime", description := "anime style", category := "Style" }

/-- The request handleSubmit produces for the concrete form state above. -/
def sampleSubmitRequest : SubmitRequest :=
  { prompt := "a cat", templateId := "t1",
    parameters :=
      { width := 1024, height := 1024, num_images := 1, steps := 50,
        cfg_scale := 15 / 2, negative_prompt := some "", seed := none } }

/-- Concrete jobs and store state used to evaluate fetchJobStatus. -/
def sampleJobA : GenerationJob :=
  { id := "j1", status := ClientStatus.processing, progress := 40,
    prompt := "a", error := none }

/-- A second job in the list, untouched by the refresh of j1. -/
def sampleJobB : GenerationJob :=
  { id := "j2", status := ClientStatus.queued, progress := 0,
    prompt := "b", error := none }

/-- The freshly fetched state of job j1. -/
def sampleJobA2 : GenerationJob :=
  { id := "j1", status := ClientStatus.completed, progress := 100,
    prompt := "a", error := none }

/-- Store holding both jobs, with j1 current. -/
def sampleStore : StoreState :=
  { jobs := [sampleJobA, sampleJobB], currentJob := some sampleJobA }

end Client

namespace Engine

/-- PromptEnhancementNode configuration, from the workflow pipeline entries in
src/unnamed/part_004: a style prompt list and a negative prompt taken from the
template configuration. -/
structure PromptEnhancementNode where
  style_prompts : List String
  negative_prompt : String
deriving DecidableEq, Repr

/-- Output record of PromptEnhancementNode.execute: the dictionary returned in
src/unnamed/part_004 has exactly the keys enhanced_prompt, negative_prompt and
original_prompt. -/
structure EnhancementOutput where
  enhanced_prompt : String
  negative_prompt : String
  original_prompt : String
deriving DecidableEq, Repr

/-- PromptEnhancementNode.execute as shown in src/unnamed/part_004: the
enhanced prompt is the base prompt, a comma and a space, then the style
prompts joined with comma and space; the base prompt is also returned
untouched under original_prompt. -/
def PromptEnhancementNode.execute (node : PromptEnhancementNode)
    (basePrompt : String) : EnhancementOutput :=
  { enhanced_prompt := basePrompt ++ ", " ++ String.intercalate ", " node.style_prompts,
    negative_prompt := node.negative_prompt,
    original_prompt := basePrompt }

/-- Job status set of the data model, spec section 3. -/
inductive Status where
  | queued
  | processing
  | completed
  | failed
  | cancelled
deriving DecidableEq, Repr

/-- Terminal statuses. -/
def Status.isTerminal : Status → Bool
  | .completed => true
  | .failed => true
  | .cancelled => true
  | _ => false

/-- Position of a status in the monotone order queued, processing, terminal. -/
def Status.rank : Status → Nat
  | .queued => 0
  | .processing => 1
  | _ => 2

/-- Modelled from the spec: StepSpec of section 3 — a type tag standing as
the step identity, declared input names and declared output names.  The
backend sources (workflow_engine.py) are not in the repository snapshot. -/
structure StepSpec where
  id : String
  declared_inputs : List String
  declared_outputs : List String
deriving DecidableEq, Repr

/-- Modelled from the spec: Template of section 3 — an ordered pipeline of
step specifications. -/
structure Template where
  id : String
  pipeline : List StepSpec
deriving DecidableEq, Repr

/-- The seed namespace of the job: the names placed into the execution
context before any step runs (spec section 4.1). -/
def seedNames : List String := ["prompt", "parameters"]

/-- Compile errors, spec sections 4.1 and 7. -/
inductive CompileError where
  | UnknownInput (stepId name : String)
  | DuplicateOutput (name : String)
deriving DecidableEq, Repr

/-- Modelled from the spec: input resolution of section 4.1 — scan the steps
in declared order and report the first declared input name satisfied neither
by the available names (seed names plus outputs of earlier steps). -/
def findUnknownInput : List String → List StepSpec → Option (String × String)
  | _, [] => none
  | avail, s :: rest =>
      match s.declared_inputs.find? (fun n => !(avail.contains n)) with
      | some n => some (s.id, n)
      | none => findUnknownInput (avail ++ s.declared_outputs) rest

/-- Modelled from the spec: duplicate output detection of section 4.1 — an
output name already produced by an earlier step is a collision. -/
def findDuplicateOutput : List String → List StepSpec → Option String
  | _, [] => none
  | produced, s :: rest =>
      match s.declared_outputs.find? (fun n => produced.contains n) with
      | some n => some n
      | none => findDuplicateOutput (produced ++ s.declared_outputs) rest

/-- Modelled from the spec: compile of section 4.1 — resolve every input, then
reject output collisions; since inputs may only use seed names and earlier
outputs, the declared order is a valid execution order of the resulting DAG,
so the compiled pipeline is returned as that ordered list. -/
def compile (t : Template) : Except CompileError (List StepSpec) :=
  match findUnknownInput seedNames t.pipeline with
  | some p => Except.error (CompileError.UnknownInput p.1 p.2)
  | none =>
      match findDuplicateOutput [] t.pipeline with
      | some n => Except.error (CompileError.DuplicateOutput n)
      | none => Except.ok t.pipeline

/-- Modelled from the spec: the environment a run observes — whether attempt
number i of a given step succeeds, the per step retry budget N of section
4.2.5, and the first dispatch index at which the cooperative cancellation
flag of section 4.2.6 is observed set, if any. -/
structure ExecEnv where
  attempts : String → Nat → Bool
  retryBudget : String → Nat
  cancelFrom : Option Nat

/-- Whether the cancellation flag is set at the check before dispatch k; the
flag is sticky, so it is set at every later check as well. -/
def ExecEnv.cancelSet (env : ExecEnv) (k : Nat) : Bool :=
  match env.cancelFrom with
  | none => false
  | some c => decide (c ≤ k)

/-- A step succeeds when some attempt among 0 .. retryBudget succeeds; the
executor stops at the first success. -/
def stepSucceeds (env : ExecEnv) (s : StepSpec) : Bool :=
  ((List.range (env.retryBudget s.id + 1)).find? (env.attempts s.id)).isSome

/-- Number of attempts the executor makes for a step: up to the first success,
or the whole budget plus the initial attempt on exhaustion. -/
def attemptsMade (env : ExecEnv) (s : StepSpec) : Nat :=
  match (List.range (env.retryBudget s.id + 1)).find? (env.attempts s.id) with
  | some i => i + 1
  | none => env.retryBudget s.id + 1

/-- Abstract token for the value a step writes under an output name. -/
def outputValue (stepId name : String) : String := stepId ++ ":" ++ name

/-- Errors recorded on the job, spec section 7. -/
inductive EngineError where
  | NodeExecutionError (stepId message : String)
  | CompileFailed (e : CompileError)
deriving DecidableEq, Repr

/-- Outcome of one job run: final status and progress, the final result
artifacts, the recorded error, the sequence of status updates pushed through
the progress publisher after the job left the queue, and the ids of the
dispatched nodes in dispatch order. -/
structure JobResult where
  status : Status
  progress : Nat
  results : List (String × String)
  error : Option EngineError
  updates : List (Status × Nat)
  executed : List String
deriving DecidableEq, Repr

/-- Progress after k of total nodes succeeded, spec section 4.2.4. -/
def progressOf (k total : Nat) : Nat := 100 * k / total

/-- Terminal outputs, spec section 4.2.7: artifact names declared as an
output of some step and consumed by no step. -/
def isTerminalOutput (steps : List StepSpec) (name : String) : Bool :=
  (steps.any (fun s => s.declared_outputs.contains name)) &&
    !(steps.any (fun s => s.declared_inputs.contains name))

/-- Final results of a completed run. -/
def terminalResults (steps : List StepSpec) (arts : List (String × String)) :
    List (String × String) :=
  arts.filter (fun a => isTerminalOutput steps a.1)

/-- Modelled from the spec: the executor loop of section 4.2, sequentialised
along the declared order (section 8 makes sequential execution a correct
schedule).  Before dispatching a node the cancellation flag is checked; a set
flag stamps the job cancelled and discards the outputs.  A dispatched node is
retried up to its budget; success commits its outputs and pushes the
recomputed progress, exhaustion stamps the job failed with a
NodeExecutionError.  All nodes succeeded stamps the job completed with
progress 100. -/
def execLoop (env : ExecEnv) (allSteps : List StepSpec) (total : Nat) :
    List StepSpec → Nat → List (String × String) → JobResult
  | [], _, arts =>
      { status := .completed, progress := 100,
        results := terminalResults allSteps arts, error := none,
        updates := [(.completed, 100)], executed := [] }
  | s :: rest, k, arts =>
      if env.cancelSet k then
        { status := .cancelled, progress := progressOf k total,
          results := [], error := none,
          updates := [(.cancelled, progressOf k total)], executed := [] }
      else if stepSucceeds env s then
        let arts := arts ++ s.declared_outputs.map (fun n => (n, outputValue s.id n))
        let r := execLoop env allSteps total rest (k + 1) arts
        { r with updates := (.processing, progressOf (k + 1) total) :: r.updates,
                 executed := s.id :: r.executed }
      else
        { status := .failed, progress := progressOf k total,
          results := [], error := some (.NodeExecutionError s.id "step failed after retries"),
          updates := [(.failed, progressOf k total)], executed := [s.id] }

/-- Seed artifacts placed into the execution context, spec section 4.2.1. -/
def seedArtifacts (promptVal paramsVal : String) : List (String × String) :=
  [("prompt", promptVal), ("parameters", paramsVal)]

/-- Modelled from the spec: one whole job run — the job is created queued, a
worker leases it, compilation rejects a bad template before any execution
(section 7, the job never reaches processing), otherwise the run is stamped
processing with progress 0 and the executor walks the pipeline. -/
def runJob (env : ExecEnv) (t : Template) (promptVal paramsVal : String) : JobResult :=
  match compile t with
  | .error e =>
      { status := .failed, progress := 0, results := [],
        error := some (.CompileFailed e), updates := [(.failed, 0)], executed := [] }
  | .ok steps =>
      let r := execLoop env steps steps.length steps 0 (seedArtifacts promptVal paramsVal)
      { r with updates := (.processing, 0) :: r.updates }

/-- Statuses the job passes through, starting from queued at creation. -/
def statusTrace (r : JobResult) : List Status :=
  Status.queued :: r.updates.map Prod.fst

/-- Progress values the job passes through, starting from 0 at creation. -/
def progressTrace (r : JobResult) : List Nat :=
  0 :: r.updates.map Prod.snd

/-- Job record the cancellation endpoint acts on. -/
structure JobRecord where
  status : Status
  cancelRequested : Bool
deriving DecidableEq, Repr

/-- Modelled from the spec: the cancellation request of section 6 — it sets
the cooperative flag observed by the executor and is idempotent when the job
is already terminal. -/
def applyCancelRequest (j : JobRecord) : JobRecord :=
  if j.status.isTerminal then j else { j with cancelRequested := true }

/-- One step of the monotone status order: no change, or a strictly later
stage of queued, processing, terminal. -/
def statusStepOk (a b : Status) : Prop := a = b ∨ a.rank < b.rank

/-- A template contains a step declaring an input name that no earlier step
produces and that is not in the seed namespace. -/
def hasUnresolvedInput (t : Template) : Prop :=
  ∃ (i : Nat) (n : String) (s : StepSpec),
    t.pipeline[i]? = some s ∧ n ∈ s.declared_inputs ∧ n ∉ seedNames ∧
      ∀ (j : Nat) (s' : StepSpec), j < i → t.pipeline[j]? = some s' →
        n ∉ s'.declared_outputs

/-- A concrete three step pipeline used to evaluate the engine model. -/
def samplePipeline : List StepSpec :=
  [{ id := "s1", declared_inputs := ["prompt"], declared_outputs := ["a"] },
   { id := "s2", declared_inputs := ["a"], declared_outputs := ["b"] },
   { id := "s3", declared_inputs := ["b"], declared_outputs := ["c"] }]

/-- Template carrying the concrete three step pipeline. -/
def sampleTemplate : Template := { id := "t3", pipeline := samplePipeline }

/-- Environment whose cancellation flag is first observed at the check before
dispatch 1 and in which every attempt succeeds. -/
def cancelEnv : ExecEnv :=
  { attempts := fun _ _ => true, retryBudget := fun _ => 0, cancelFrom := some 1 }

/-- Environment in which every step has retry budget 2 and fails on attempts
0 and 1 but succeeds on attempt 2; no cancellation is requested. -/
def retryEnv : ExecEnv :=
  { attempts := fun _ i => decide (i = 2), retryBudget := fun _ => 2,
    cancelFrom := none }

/-- Single step template whose step consumes the seed prompt. -/
def retryTemplate : Template :=
  { id := "t1",
    pipeline := [{ id := "gen", declared_inputs := ["prompt"],
                   declared_outputs := ["img"] }] }

/-- Template whose single step declares an input name nothing produces. -/
def badTemplate : Template :=
  { id := "tb",
    pipeline := [{ id := "gen", declared_inputs := ["magic"],
                   declared_outputs := ["img"] }] }

/-- Environment with no cancellation and always succeeding attempts. -/
def plainEnv : ExecEnv :=
  { attempts := fun _ _ => true, retryBudget := fun _ => 0, cancelFrom := none }

end Engine

namespace Client

lemma applyEvent_inBounds {fd : FormData} {e : FormEvent}
    (hfd : fd.inBounds) (he : e.fromUI) : (applyEvent fd e).inBounds := by
  obtain ⟨h1, h2, h3, h4, h5, h6⟩ := hfd
  cases e with
  | setPrompt s => exact ⟨h1, h2, h3, h4, h5, h6⟩
  | setNegativePrompt s => exact ⟨h1, h2, h3, h4, h5, h6⟩
  | setResolution v =>
      simp only [applyEvent]
      cases RESOLUTION_PRESETS.find? (fun p => p.1 = v) with
      | none => exact ⟨h1, h2, h3, h4, h5, h6⟩
      | some p => exact ⟨h1, h2, h3, h4, h5, h6⟩
  | setNumImages n => exact ⟨he.1, he.2, h3, h4, h5, h6⟩
  | setSteps n => exact ⟨h1, h2, he.1, he.2, h5, h6⟩
  | setCfgScale q => exact ⟨h1, h2, h3, h4, he.1, he.2⟩
  | setSeed s => exact ⟨h1, h2, h3, h4, h5, h6⟩

lemma applyEvents_inBounds :
    ∀ (evs : List FormEvent) (fd : FormData), fd.inBounds →
      (∀ e ∈ evs, e.fromUI) → (applyEvents fd evs).inBounds := by
  intro evs
  induction evs with
  | nil => intro fd hfd _; exact hfd
  | cons e rest ih =>
      intro fd hfd hui
      have he : e.fromUI := hui e (List.mem_cons_self e rest)
      have hrest : ∀ x ∈ rest, x.fromUI := fun x hx => hui x (List.mem_cons_of_mem e hx)
      exact ih (applyEvent fd e) (applyEvent_inBounds hfd he) hrest

lemma initialFormData_inBounds : initialFormData.inBounds := by
  refine ⟨?_, ?_, ?_, ?_, ?_, ?_⟩ <;> simp [initialFormData, FormData.inBounds] <;> norm_num

lemma reachable_inBounds {fd : FormData} (h : ReachableForm fd) : fd.inBounds := by
  obtain ⟨evs, hui, rfl⟩ := h
  exact applyEvents_inBounds evs initialFormData initialFormData_inBounds hui

end Client

namespace Engine

lemma progressOf_le_100 {k total : Nat} (h : k ≤ total) : progressOf k total ≤ 100 := by
  unfold progressOf
  rcases Nat.eq_zero_or_pos total with h0 | h0
  · subst h0; simp
  · calc 100 * k / total ≤ 100 * total / total :=
          Nat.div_le_div_right (Nat.mul_le_mul_left _ h)
    _ = 100 := Nat.mul_div_left 100 h0

lemma progressOf_lt_100 {k total : Nat} (h : k < total) : progressOf k total < 100 :=
  Nat.div_lt_of_lt_mul (by omega)

lemma progressOf_succ_le {k total : Nat} : progressOf k total ≤ progressOf (k + 1) total :=
  Nat.div_le_div_right (by omega)

lemma execLoop_updates_bounds (env : ExecEnv) (allSteps : List StepSpec) (total : Nat) :
    ∀ (remaining : List StepSpec) (k : Nat) (arts : List (String × String)),
      k + remaining.length = total →
      List.Chain' (· ≤ ·)
          ((execLoop env allSteps total remaining k arts).updates.map Prod.snd) ∧
        ∀ x ∈ (execLoop env allSteps total remaining k arts).updates.map Prod.snd,
          progressOf k total ≤ x ∧ x ≤ 100 := by
  intro remaining
  induction remaining with
  | nil =>
      intro k arts hk
      simp only [List.length_nil, Nat.add_zero] at hk
      subst hk
      refine ⟨by simp [execLoop], ?_⟩
      intro x hx
      simp [execLoop] at hx
      subst hx
      exact ⟨progressOf_le_100 (le_refl k), le_refl 100⟩
  | cons s rest ih =>
      intro k arts hk
      have hkt : k < total := by simp at hk; omega
      by_cases hc : env.cancelSet k
      · refine ⟨by simp [execLoop, hc], ?_⟩
        intro x hx
        simp [execLoop, hc] at hx
        subst hx
        exact ⟨le_refl _, progressOf_le_100 (le_of_lt hkt)⟩
      · by_cases hs : stepSucceeds env s
        · have hk1 : (k + 1) + rest.length = total := by simp at hk ⊢; omega
          have ihr := ih (k + 1)
            (arts ++ s.declared_outputs.map (fun n => (n, outputValue s.id n))) hk1
          constructor
          · simp only [execLoop, hc, hs, if_true, if_false, List.map_cons]
            refine List.chain'_cons'.mpr ⟨?_, ihr.1⟩
            intro b hb
            exact (ihr.2 b (List.mem_of_mem_head? hb)).1
          · intro x hx
            have hx2 : x = progressOf (k + 1) total ∨
                x ∈ (execLoop env allSteps total rest (k + 1)
                  (arts ++ s.declared_outputs.map
                    (fun n => (n, outputValue s.id n)))).updates.map Prod.snd := by
              simpa [execLoop, hc, hs] using hx
            rcases hx2 with h1 | h1
            · subst h1
              exact ⟨progressOf_succ_le, progressOf_le_100 hkt⟩
            · exact ⟨le_trans progressOf_succ_le (ihr.2 x h1).1, (ihr.2 x h1).2⟩
        · refine ⟨by simp [execLoop, hc, hs], ?_⟩
          intro x hx
          simp [execLoop, hc, hs] at hx
          subst hx
          exact ⟨le_refl _, progressOf_le_100 (le_of_lt hkt)⟩

lemma execLoop_completed_iff (env : ExecEnv) (allSteps : List StepSpec) (total : Nat) :
    ∀ (remaining : List StepSpec) (k : Nat) (arts : List (String × String)),
      k + remaining.length = total →
      ((execLoop env allSteps total remaining k arts).progress = 100 ↔
        (execLoop env allSteps total remaining k arts).status = Status.completed) := by
  intro remaining
  induction remaining with
  | nil => intro k arts hk; simp [execLoop]
  | cons s rest ih =>
      intro k arts hk
      have hkt : k < total := by simp at hk; omega
      have hne : progressOf k total ≠ 100 := Nat.ne_of_lt (progressOf_lt_100 hkt)
      by_cases hc : env.cancelSet k
      · simp only [execLoop, hc, if_true]
        exact iff_of_false hne (by simp)
      · by_cases hs : stepSucceeds env s
        · have hk1 : (k + 1) + rest.length = total := by simp at hk ⊢; omega
          simpa only [execLoop, hc, hs, if_true, if_false] using
            ih (k + 1) (arts ++ s.declared_outputs.map (fun n => (n, outputValue s.id n))) hk1
        · simp only [execLoop, hc, hs, if_true, if_false]
          exact iff_of_false hne (by simp)

lemma execLoop_status_chain (env : ExecEnv) (allSteps : List StepSpec) (total : Nat) :
    ∀ (remaining : List StepSpec) (k : Nat) (arts : List (String × String)),
      List.Chain' statusStepOk
        (Status.processing ::
          (execLoop env allSteps total remaining k arts).updates.map Prod.fst) := by
  intro remaining
  induction remaining with
  | nil =>
      intro k arts
      simp only [execLoop, List.map_cons, List.map_nil]
      refine List.chain'_cons.mpr ⟨Or.inr ?_, List.chain'_singleton _⟩
      simp [Status.rank]
  | cons s rest ih =>
      intro k arts
      by_cases hc : env.cancelSet k
      · simp only [execLoop, hc, if_true, List.map_cons, List.map_nil]
        refine List.chain'_cons.mpr ⟨Or.inr ?_, List.chain'_singleton _⟩
        simp [Status.rank]
      · by_cases hs : stepSucceeds env s
        · simp only [execLoop, hc, hs, if_true, if_false, List.map_cons]
          exact List.chain'_cons.mpr ⟨Or.inl rfl, ih (k + 1) _⟩
        · simp only [execLoop, hc, hs, if_true, if_false, List.map_cons, List.map_nil]
          refine List.chain'_cons.mpr ⟨Or.inr ?_, List.chain'_singleton _⟩
          simp [Status.rank]

lemma execLoop_cancelled (env : ExecEnv) (allSteps : List StepSpec) (total : Nat) :
    ∀ (remaining : List StepSpec) (k : Nat) (arts : List (String × String)) (c : Nat),
      env.cancelFrom = some c → k ≤ c → c - k < remaining.length →
      (∀ s ∈ remaining.take (c - k), stepSucceeds env s = true) →
      (execLoop env allSteps total remaining k arts).status = Status.cancelled ∧
        (execLoop env allSteps total remaining k arts).results = [] := by
  intro remaining
  induction remaining with
  | nil => intro k arts c _ _ hlt _; simp at hlt
  | cons s rest ih =>
      intro k arts c hcf hkc hlt htake
      by_cases hkc2 : c ≤ k
      · have hck : env.cancelSet k = true := by
          simp [ExecEnv.cancelSet, hcf, hkc2]
        simp [execLoop, hck]
      · have hck : env.cancelSet k = false := by
          simp [ExecEnv.cancelSet, hcf]; omega
        have hpos : 0 < c - k := by omega
        have hs : stepSucceeds env s = true := by
          apply htake
          rcases Nat.exists_eq_add_of_lt hpos with ⟨m, hm⟩
          rw [show c - k = (c - k - 1) + 1 by omega]
          simp [List.take_succ_cons]
        have := ih (k + 1) (arts ++ s.declared_outputs.map (fun n => (n, outputValue s.id n)))
          c hcf (by omega) (by simp at hlt ⊢; omega) ?_
        · simpa only [execLoop, hck, hs, if_true, if_false] using this
        · intro x hx
          apply htake
          rw [show c - k = (c - (k + 1)) + 1 by omega]
          simp only [List.take_succ_cons, List.mem_cons]
          exact Or.inr hx

lemma execLoop_all_succeed (env : ExecEnv) (allSteps : List StepSpec) (total : Nat) :
    ∀ (remaining : List StepSpec) (k : Nat) (arts : List (String × String)),
      env.cancelFrom = none →
      (∀ s ∈ remaining, stepSucceeds env s = true) →
      (execLoop env allSteps total remaining k arts).status = Status.completed ∧
        (execLoop env allSteps total remaining k arts).error = none := by
  intro remaining
  induction remaining with
  | nil => intro k arts _ _; simp [execLoop]
  | cons s rest ih =>
      intro k arts hcf hall
      have hck : env.cancelSet k = false := by simp [ExecEnv.cancelSet, hcf]
      have hs : stepSucceeds env s = true := hall s (List.mem_cons_self s rest)
      have := ih (k + 1) (arts ++ s.declared_outputs.map (fun n => (n, outputValue s.id n)))
        hcf (fun x hx => hall x (List.mem_cons_of_mem s hx))
      simpa only [execLoop, hck, hs, if_true, if_false] using this

lemma findUnknownInput_none :
    ∀ (steps : List StepSpec) (avail : List String),
      findUnknownInput avail steps = none →
      ∀ (i : Nat) (s : StepSpec), steps[i]? = some s → ∀ n ∈ s.declared_inputs,
        n ∈ avail ∨ ∃ (j : Nat) (s' : StepSpec),
          j < i ∧ steps[j]? = some s' ∧ n ∈ s'.declared_outputs := by
  intro steps
  induction steps with
  | nil => intro avail _ i s hi; simp at hi
  | cons s0 rest ih =>
      intro avail hnone i s hi n hn
      have hsplit : s0.declared_inputs.find? (fun m => !(avail.contains m)) = none ∧
          findUnknownInput (avail ++ s0.declared_outputs) rest = none := by
        unfold findUnknownInput at hnone
        cases hfind : s0.declared_inputs.find? (fun m => !(avail.contains m)) with
        | some m => rw [hfind] at hnone; simp at hnone
        | none => rw [hfind] at hnone; exact ⟨rfl, hnone⟩
      obtain ⟨hf0, hrest⟩ := hsplit
      cases i with
      | zero =>
          have hs0 : s0 = s := by simpa using hi
          subst hs0
          have := List.find?_eq_none.mp hf0 n hn
          simp only [Bool.not_eq_true', Bool.not_eq_false] at this
          exact Or.inl (List.mem_of_elem_eq_true this)
      | succ i0 =>
          have hi0 : rest[i0]? = some s := by simpa using hi
          rcases ih (avail ++ s0.declared_outputs) hrest i0 s hi0 n hn with hmem | hex
          · rcases List.mem_append.mp hmem with ha | ho
            · exact Or.inl ha
            · exact Or.inr ⟨0, s0, Nat.succ_pos i0, by simp, ho⟩
          · obtain ⟨j, s', hj, hjget, hjout⟩ := hex
            exact Or.inr ⟨j + 1, s', Nat.succ_lt_succ hj, by simpa using hjget, hjout⟩

lemma compile_unknownInput {t : Template} (h : hasUnresolvedInput t) :
    ∃ sid n, compile t = Except.error (CompileError.UnknownInput sid n) := by
  cases hfind : findUnknownInput seedNames t.pipeline with
  | some p => exact ⟨p.1, p.2, by simp [compile, hfind]⟩
  | none =>
      exfalso
      obtain ⟨i, n, s, hi, hn, hseed, hearlier⟩ := h
      rcases findUnknownInput_none t.pipeline seedNames hfind i s hi n hn with
        hmem | ⟨j, s', hj, hj2, hj3⟩
      · exact hseed hmem
      · exact hearlier j s' hj hj2 hj3

end Engine

open Client Engine

/-- Claim C1: the claim says every submission request carries exactly the
fields template_id, prompt and parameters, with parameters equal to the
generation parameters the user chose.  Evaluating the composed submission
path of GenerationForm.handleSubmit, the store action and
ApiClient.submitGeneration at a concrete input shows the body actually sent
carries only template_id and prompt: the store forwards only two positional
arguments, so the parameters object is the value undefined and
JSON.stringify drops the field.  The job_id part of the claim does hold of
the client: an ok response yields its job_id field. -/
theorem c1_submission_drops_parameters :
    GenerationForm.submitBody "a cat" "template-1" exampleParameters =
        [("template_id", JsVal.str "template-1"), ("prompt", JsVal.str "a cat")] ∧
      (GenerationForm.submitBody "a cat" "template-1" exampleParameters).all
          (fun f => decide (f.1 ≠ "parameters")) = true ∧
        ApiClient.submitGenerationResult { ok := true, job_id := "job-7" } =
          Except.ok "job-7" := by
  refine ⟨by decide, by decide, rfl⟩

/-- Claim C2: over every run of the engine, the progress values in the
sequence of status updates are non decreasing, and the final progress equals
100 exactly when the final status is completed. -/
theorem c2_progress_monotone_and_100_iff_completed (env : ExecEnv) (t : Template)
    (pv av : String) :
    List.Chain' (· ≤ ·) (progressTrace (runJob env t pv av)) ∧
      ((runJob env t pv av).progress = 100 ↔
        (runJob env t pv av).status = Status.completed) := by
  cases hcomp : compile t with
  | error e =>
      refine ⟨by simp [runJob, hcomp, progressTrace], ?_⟩
      simp only [runJob, hcomp]
      exact iff_of_false (by omega) (by simp)
  | ok steps =>
      have hb := execLoop_updates_bounds env steps steps.length steps 0
        (seedArtifacts pv av) (by simp)
      have hiff := execLoop_completed_iff env steps steps.length steps 0
        (seedArtifacts pv av) (by simp)
      constructor
      · simp only [runJob, hcomp, progressTrace, List.map_cons]
        exact List.chain'_cons'.mpr ⟨fun b _ => Nat.zero_le b,
          List.chain'_cons'.mpr ⟨fun b _ => Nat.zero_le b, hb.1⟩⟩
      · simpa only [runJob, hcomp] using hiff

/-- Claim C3: a job is at every moment in exactly one of the five statuses
queued, processing, completed, failed, cancelled, and every status change in
its trace moves strictly forward in the order queued, processing, terminal;
in particular no change ever leads back to queued. -/
theorem c3_status_transitions_monotone (env : ExecEnv) (t : Template)
    (pv av : String) :
    (∀ s ∈ statusTrace (runJob env t pv av),
        s = Status.queued ∨ s = Status.processing ∨ s = Status.completed ∨
          s = Status.failed ∨ s = Status.cancelled) ∧
      List.Chain' statusStepOk (statusTrace (runJob env t pv av)) ∧
        List.Chain' (fun a b => b = Status.queued → a = Status.queued)
          (statusTrace (runJob env t pv av)) := by
  have hchain : List.Chain' statusStepOk (statusTrace (runJob env t pv av)) := by
    cases hcomp : compile t with
    | error e =>
        simp only [runJob, hcomp, statusTrace, List.map_cons, List.map_nil]
        refine List.chain'_cons.mpr ⟨Or.inr ?_, List.chain'_singleton _⟩
        simp [Status.rank]
    | ok steps =>
        simp only [runJob, hcomp, statusTrace, List.map_cons]
        refine List.chain'_cons.mpr ⟨Or.inr ?_, ?_⟩
        · simp [Status.rank]
        · exact execLoop_status_chain env steps steps.length steps 0 (seedArtifacts pv av)
  refine ⟨fun s _ => by cases s <;> simp, hchain, ?_⟩
  refine hchain.imp ?_
  intro a b hab hbq
  rcases hab with rfl | hlt
  · exact hbq
  · subst hbq
    exact absurd hlt (by cases a <;> simp [Status.rank])

/-- Claim C4: the claim says the stream of job updates terminates exactly
when the status becomes completed, failed or cancelled, never while the job
is still queued or processing.  The pollJob loop keeps polling only on the
literals pending and running, which the backend job model never emits, so on
the status sequence queued, processing, completed the loop delivers only the
queued update and stops — while the job is still queued and the later
completed update is never delivered. -/
theorem c4_polling_stops_while_queued :
    pollJobTrace
        [ClientStatus.queued, ClientStatus.processing, ClientStatus.completed] =
        [ClientStatus.queued] ∧
      ClientStatus.queued.isTerminal = false ∧
        ClientStatus.completed ∉
          pollJobTrace
            [ClientStatus.queued, ClientStatus.processing, ClientStatus.completed] := by
  refine ⟨rfl, rfl, by decide⟩

/-- Claim C5: prompt augmentation is a pure function of the base prompt and
the style list: the enhanced prompt is the base prompt followed by a comma
and space and the comma joined style prompts, two runs on the same inputs
give the same output, and the base prompt is returned unchanged. -/
theorem c5_prompt_enhancement_pure (node : PromptEnhancementNode)
    (basePrompt : String) :
    (node.execute basePrompt).enhanced_prompt =
        basePrompt ++ ", " ++ String.intercalate ", " node.style_prompts ∧
      (node.execute basePrompt).original_prompt = basePrompt ∧
        node.execute basePrompt = node.execute basePrompt :=
  ⟨rfl, rfl, rfl⟩

/-- Claim C6: cancelling after the steps before position c have succeeded and
before the step at position c starts yields final status cancelled, with the
succeeded steps outputs discarded from the final results; and a cancellation
request on a job already in a terminal status is idempotent (it is in fact
idempotent on every job). -/
theorem c6_cancellation_discards_results (env : ExecEnv) (t : Template)
    (pv av : String) (steps : List StepSpec) (c : Nat)
    (hcomp : compile t = Except.ok steps) (hcf : env.cancelFrom = some c)
    (_hpos : 0 < c) (hlt : c < steps.length)
    (hsucc : ∀ s ∈ steps.take c, stepSucceeds env s = true) :
    ((runJob env t pv av).status = Status.cancelled ∧
        (runJob env t pv av).results = []) ∧
      (∀ j : JobRecord, j.status.isTerminal = true → applyCancelRequest j = j) ∧
        (∀ j : JobRecord,
          applyCancelRequest (applyCancelRequest j) = applyCancelRequest j) := by
  refine ⟨?_, ?_, ?_⟩
  · have h := execLoop_cancelled env steps steps.length steps 0 (seedArtifacts pv av)
      c hcf (Nat.zero_le c) (by simpa using hlt) (by simpa using hsucc)
    constructor
    · simpa only [runJob, hcomp] using h.1
    · simpa only [runJob, hcomp] using h.2
  · intro j hj; simp [applyCancelRequest, hj]
  · intro j
    by_cases hj : j.status.isTerminal = true <;> simp [applyCancelRequest, hj]

/-- Witness for C6: a concrete run of the three step pipeline with the
cancellation flag raised after step s1 succeeded ends cancelled with empty
results, and a cancel request leaves a terminal job unchanged. -/
theorem c6_cancellation_discards_results_witness :
    (runJob cancelEnv sampleTemplate "p" "q").status = Status.cancelled ∧
      (runJob cancelEnv sampleTemplate "p" "q").results = [] ∧
        applyCancelRequest { status := Status.completed, cancelRequested := false } =
          { status := Status.completed, cancelRequested := false } := by
  have h := c6_cancellation_discards_results cancelEnv sampleTemplate "p" "q"
    samplePipeline 1 rfl rfl (by decide) (by decide) (by decide)
  exact ⟨h.1.1, h.1.2, h.2.1 _ rfl⟩

/-- Claim C7: for a step with retry budget N the executor re-runs it until
the first successful attempt among attempts 0 .. N, making at most N + 1
attempts; when every step of a compiled pipeline succeeds within its budget
and no cancellation is requested, the job completes with no
NodeExecutionError recorded. -/
theorem c7_retry_within_budget_completes (env : ExecEnv) (t : Template)
    (pv av : String) (steps : List StepSpec) :
    (∀ s : StepSpec, stepSucceeds env s = true ↔
        ∃ i, i ≤ env.retryBudget s.id ∧ env.attempts s.id i = true) ∧
      (∀ s : StepSpec, attemptsMade env s ≤ env.retryBudget s.id + 1) ∧
        (compile t = Except.ok steps → env.cancelFrom = none →
          (∀ s ∈ steps, stepSucceeds env s = true) →
          (runJob env t pv av).status = Status.completed ∧
            (runJob env t pv av).error = none) := by
  refine ⟨?_, ?_, ?_⟩
  · intro s
    unfold stepSucceeds
    rw [List.find?_isSome]
    constructor
    · rintro ⟨i, hmem, hi⟩
      exact ⟨i, Nat.lt_succ_iff.mp (List.mem_range.mp hmem), hi⟩
    · rintro ⟨i, hle, hi⟩
      exact ⟨i, List.mem_range.mpr (Nat.lt_succ_iff.mpr hle), hi⟩
  · intro s
    unfold attemptsMade
    cases hfind : (List.range (env.retryBudget s.id + 1)).find? (env.attempts s.id) with
    | some i =>
        have hmem := List.mem_range.mp (List.mem_of_find?_eq_some hfind)
        show i + 1 <= env.retryBudget s.id + 1
        omega
    | none => exact le_refl _
  · intro hcomp hcf hall
    have h := execLoop_all_succeed env steps steps.length steps 0
      (seedArtifacts pv av) hcf hall
    exact ⟨by simpa only [runJob, hcomp] using h.1,
      by simpa only [runJob, hcomp] using h.2⟩

/-- Witness for C7: the single step pipeline whose step has retry budget 2,
fails on attempts 0 and 1 and succeeds on attempt 2 ends completed with no
error recorded. -/
theorem c7_retry_within_budget_completes_witness :
    (runJob retryEnv retryTemplate "p" "q").status = Status.completed ∧
      (runJob retryEnv retryTemplate "p" "q").error = none := by
  have h := c7_retry_within_budget_completes retryEnv retryTemplate "p" "q"
    retryTemplate.pipeline
  exact h.2.2 rfl rfl (by decide)

/-- Claim C8: a template containing a step declaring an input name produced
by no earlier step and absent from the seed namespace is rejected by
compilation with CompileError.UnknownInput, no step of it is ever dispatched,
and the job never reaches the processing status. -/
theorem c8_unknown_input_rejected (env : ExecEnv) (t : Template)
    (pv av : String) (h : hasUnresolvedInput t) :
    (∃ sid n, compile t = Except.error (CompileError.UnknownInput sid n)) ∧
      (runJob env t pv av).executed = [] ∧
        Status.processing ∉ statusTrace (runJob env t pv av) := by
  obtain ⟨sid, n, hcomp⟩ := compile_unknownInput h
  refine ⟨⟨sid, n, hcomp⟩, ?_, ?_⟩
  · simp [runJob, hcomp]
  · simp [runJob, hcomp, statusTrace]

/-- Witness for C8: the template whose step wants the input magic, which
nothing produces, is rejected and nothing runs. -/
theorem c8_unknown_input_rejected_witness :
    (∃ sid n, compile badTemplate = Except.error (CompileError.UnknownInput sid n)) ∧
      (runJob plainEnv badTemplate "p" "q").executed = [] ∧
        Status.processing ∉ statusTrace (runJob plainEnv badTemplate "p" "q") :=
  c8_unknown_input_rejected plainEnv badTemplate "p" "q"
    ⟨0, "magic", { id := "gen", declared_inputs := ["magic"], declared_outputs := ["img"] },
      rfl, by decide, by decide, fun j _ hj _ => absurd hj (Nat.not_lt_zero j)⟩

/-- Claim C9: from any form state the rendered widgets can reach, the form
dispatches a submission only when a template is selected and the trimmed
prompt is nonempty, every dispatched parameter set satisfies the slider
bounds on num_images, steps and cfg_scale, and otherwise no request is
sent. -/
theorem c9_form_submits_only_valid (fd : FormData) (hfd : ReachableForm fd)
    (tpl : Option ClientTemplate) :
    (∀ req, handleSubmit tpl fd = some req →
        tpl ≠ none ∧ jsTrim fd.prompt ≠ "" ∧
          1 ≤ req.parameters.num_images ∧ req.parameters.num_images ≤ 4 ∧
            10 ≤ req.parameters.steps ∧ req.parameters.steps ≤ 150 ∧
              1 ≤ req.parameters.cfg_scale ∧ req.parameters.cfg_scale ≤ 20) ∧
      ((tpl = none ∨ jsTrim fd.prompt = "") → handleSubmit tpl fd = none) := by
  obtain ⟨h1, h2, h3, h4, h5, h6⟩ := reachable_inBounds hfd
  constructor
  · intro req hreq
    cases tpl with
    | none => simp [handleSubmit] at hreq
    | some tp =>
        by_cases hp : jsTrim fd.prompt = ""
        · simp [handleSubmit, hp] at hreq
        · have hreq2 : req =
              { prompt := fd.prompt, templateId := tp.id,
                parameters :=
                  { width := fd.width, height := fd.height,
                    num_images := fd.numImages, steps := fd.steps,
                    cfg_scale := fd.cfgScale,
                    negative_prompt := some fd.negativePrompt,
                    seed :=
                      match fd.seed with
                      | some s => if s = 0 then none else some s
                      | none => none } } := by
            have hval := hreq
            simp only [handleSubmit] at hval
            rw [if_neg hp] at hval
            exact (Option.some.inj hval).symm
          subst hreq2
          exact ⟨by simp, hp, h1, h2, h3, h4, h5, h6⟩
  · intro hcase
    rcases hcase with rfl | hp
    · rfl
    · cases tpl with
      | none => rfl
      | some tp => simp [handleSubmit, hp]

/-- Witness for C9: after typing the prompt a cat into the fresh form and
selecting a template, the dispatched request satisfies all the bounds. -/
theorem c9_form_submits_only_valid_witness :
    some sampleClientTemplate ≠ none ∧ jsTrim sampleFormState.prompt ≠ "" ∧
      1 ≤ sampleSubmitRequest.parameters.num_images ∧
        sampleSubmitRequest.parameters.num_images ≤ 4 ∧
          10 ≤ sampleSubmitRequest.parameters.steps ∧
            sampleSubmitRequest.parameters.steps ≤ 150 ∧
              1 ≤ sampleSubmitRequest.parameters.cfg_scale ∧
                sampleSubmitRequest.parameters.cfg_scale ≤ 20 := by
  have h := c9_form_submits_only_valid sampleFormState
    ⟨[FormEvent.setPrompt "a cat"], ?_, rfl⟩ (some sampleClientTemplate)
  · refine h.1 sampleSubmitRequest ?_
    have hne : ¬ (jsTrim sampleFormState.prompt = "") := by decide
    simp only [handleSubmit, if_neg hne]
    rfl
  · intro e he
    rw [List.mem_singleton] at he
    subst he
    exact trivial

/-- Claim C10: fetchJobStatus replaces exactly the jobs list entries whose id
equals the fetched jobId, keeping length, order and every other entry, and it
touches currentJob only when the current jobs id equals jobId; on a fetch
error the whole store state is left unchanged. -/
theorem c10_fetchJobStatus_frame (st : StoreState) (jobId : String)
    (fetched : Except String GenerationJob) :
    (∀ e, fetched = Except.error e → fetchJobStatus st jobId fetched = st) ∧
      (∀ job, fetched = Except.ok job →
        (fetchJobStatus st jobId fetched).jobs.length = st.jobs.length ∧
          (∀ i : Nat, (fetchJobStatus st jobId fetched).jobs[i]? =
              (st.jobs[i]?).map (fun j => if j.id = jobId then job else j)) ∧
            (∀ c, st.currentJob = some c → c.id ≠ jobId →
                (fetchJobStatus st jobId fetched).currentJob = st.currentJob) ∧
              (st.currentJob = none →
                  (fetchJobStatus st jobId fetched).currentJob = none) ∧
                (∀ c, st.currentJob = some c → c.id = jobId →
                    (fetchJobStatus st jobId fetched).currentJob = some job)) := by
  constructor
  · rintro e rfl; rfl
  · rintro job rfl
    refine ⟨?_, ?_, ?_, ?_, ?_⟩
    · cases hcur : st.currentJob with
      | none => simp [fetchJobStatus, hcur]
      | some c =>
          by_cases hc : c.id = jobId <;> simp [fetchJobStatus, hcur, hc]
    · intro i
      cases hcur : st.currentJob with
      | none => simp [fetchJobStatus, hcur, List.getElem?_map]
      | some c =>
          by_cases hc : c.id = jobId <;>
            simp [fetchJobStatus, hcur, hc, List.getElem?_map]
    · intro c hcur hc
      simp [fetchJobStatus, hcur, hc]
    · intro hcur
      simp [fetchJobStatus, hcur]
    · intro c hcur hc
      simp [fetchJobStatus, hcur, hc]

/-- Witness for C10: refreshing job j1 in the concrete store replaces it in
the list, updates currentJob, and an errored fetch changes nothing. -/
theorem c10_fetchJobStatus_frame_witness :
    (fetchJobStatus sampleStore "j1" (Except.ok sampleJobA2)).jobs.length =
        sampleStore.jobs.length ∧
      (fetchJobStatus sampleStore "j1" (Except.ok sampleJobA2)).jobs[1]? =
          (sampleStore.jobs[1]?).map
            (fun j => if j.id = "j1" then sampleJobA2 else j) ∧
        (fetchJobStatus sampleStore "j1" (Except.ok sampleJobA2)).currentJob =
            some sampleJobA2 ∧
          fetchJobStatus sampleStore "j1" (Except.error "network down") =
            sampleStore := by
  have h := c10_fetchJobStatus_frame sampleStore "j1" (Except.ok sampleJobA2)
  have h2 := c10_fetchJobStatus_frame sampleStore "j1" (Except.error "network down")
  refine ⟨(h.2 sampleJobA2 rfl).1, (h.2 sampleJobA2 rfl).2.1 1, ?_, ?_⟩
  · exact (h.2 sampleJobA2 rfl).2.2.2.2 sampleJobA rfl rfl
  · exact h2.1 "network down" rfl

end SimpleComfy
